import Mathlib

/-!
Verification of the Tomorrowland ticket price checker (price_checker.py).

The script is a single sequential pipeline: fetch rendered markup, extract
the lowest available ticket price from an embedded JSON block, read or
write the last observed price in an external JSONBin record, and send an
email alert when the current price is at or below a fixed threshold.

We shallowly embed the price-relevant logic over exact rationals (Python
floats are modelled as the rationals they denote; see roundTo2 for the
one place where the two-decimal formatting of a float matters).
-/

namespace PriceChecker

/-- One listing item from the embedded JSON block.  In the source each
item is a JSON dict; the extraction loop (price_checker.py lines 98-102)
only consults the key rawPrice (present and numeric, hence Option Rat:
a missing key fails the membership test, a non-numeric value would raise
inside the catch-all handler) and the key availableTickets, read with
item.get('availableTickets', 0), hence Option Int with default 0. -/
structure Listing where
  rawPrice : Option Rat
  availableTickets : Option Int
deriving DecidableEq, Repr

/-- The parsed JSON payload of the index-data script tag.  The source
navigates json_data.get('grid', {}).get('items', []) (line 95); a missing
grid key or missing items key both yield the empty default, modelled as
gridItems = none. -/
structure Payload where
  gridItems : Option (List Listing)
deriving DecidableEq, Repr

/-- Fetched page markup, as seen by the extraction core: either the
index-data script tag is absent (indexData = none, line 91-92), or it is
present but its text is not parseable JSON (some none, json.loads at
line 94 raises), or it parses to a payload (some (some p)). -/
structure Markup where
  indexData : Option (Option Payload)
deriving DecidableEq, Repr

/-- Extraction failures raised inside the extraction core: the raise at
line 92 when the index-data tag is missing, and the json.loads failure
at line 94.  Both are caught by the function-level handler at line 111,
which maps them to the overall None result. -/
inductive ExtractionError where
  | markerNotFound
  | malformedPayload
deriving DecidableEq, Repr

/-- One iteration of the minimum loop (lines 98-102): if rawPrice is
present and availableTickets (default 0) is greater than zero, compare
the price against the running minimum; the accumulator none stands for
the initial float('inf'). -/
def foldStep (acc : Option Rat) (item : Listing) : Option Rat :=
  match item.rawPrice with
  | none => acc
  | some p =>
    if 0 < item.availableTickets.getD 0 then
      match acc with
      | none => some p
      | some m => if p < m then some p else acc
    else acc

/-- The extraction core of get_current_price (lines 89-109), applied to
already-fetched markup: locate the index-data tag (raise markerNotFound
if absent), parse its JSON (raise malformedPayload on failure), walk to
grid.items with empty default, run the minimum loop, and return none
when the minimum stayed at float('inf') (lines 104-106). -/
def extract_price (m : Markup) : Except ExtractionError (Option Rat) :=
  match m.indexData with
  | none => .error .markerNotFound
  | some none => .error .malformedPayload
  | some (some payload) =>
    let listings := payload.gridItems.getD []
    .ok (listings.foldl foldStep none)

/-- The whole get_current_price function (lines 41-121) as observed by
main: the browser layer either fails to produce markup (fetched = none)
or yields markup; every raised error is caught by the except at line 111
and turned into None, and a successful parse returns the loop result. -/
def get_current_price (fetched : Option Markup) : Option Rat :=
  match fetched with
  | none => none
  | some m =>
    match extract_price m with
    | .error _ => none
    | .ok r => r

/-- A markup value whose index-data tag parses to a payload holding the
given listings: the shape every extraction claim quantifies over. -/
def markupOf (items : List Listing) : Markup :=
  ⟨some (some ⟨some items⟩)⟩

/-- The price of a listing when it qualifies for the minimum (rawPrice
present and availableTickets greater than zero), none otherwise: the
guard of line 99. -/
def listingPrice (item : Listing) : Option Rat :=
  match item.rawPrice with
  | none => none
  | some p => if 0 < item.availableTickets.getD 0 then some p else none

/-- The prices of the qualifying listings, in source order. -/
def qualifyingPrices (listings : List Listing) : List Rat :=
  listings.filterMap listingPrice

/-- The minimum loop restricted to the qualifying prices: one comparison
step of lines 100-102. -/
def minStep (acc : Option Rat) (p : Rat) : Option Rat :=
  match acc with
  | none => some p
  | some m => if p < m then some p else acc

/-- The stored JSONBin record: the update at line 170 writes both fields,
a read (line 130) may find the price field absent in a fresh bin. -/
structure StoreRecord where
  last_checked_utc : String
  lowest_price_eur : Option Rat
deriving DecidableEq, Repr

/-- Two-decimal rounding as performed by float(f-string with .2f) at
line 170.  Python formatting rounds the binary double to two decimals
with ties to even; on exact rationals this is round-half-to-even at the
second decimal.  At the one input the claims evaluate, 182.345, the two
semantics agree: the double nearest 182.345 is 6415694328538071 / 2^45,
strictly below the decimal tie, so Python prints 182.34, and the exact
decimal tie 182.345 also resolves to the even cent 182.34. -/
def roundTo2 (q : Rat) : Rat :=
  let s := q * 100
  let f : Int := s.floor
  let n : Int :=
    if (1 : Rat) / 2 < s - f then f + 1
    else if s - f < (1 : Rat) / 2 then f
    else if f % 2 = 0 then f else f + 1
  (n : Rat) / 100

/-- The get_last_price_from_jsonbin function (lines 123-139).  creds is
the truthiness of all([JSONBIN_API_KEY, JSONBIN_BIN_ID]) (line 124);
resp is the outcome of the GET: none when the request, status check or
JSON decoding fails (caught at line 137), some record otherwise.  The
retrieved field goes through the truthiness test at line 132, so an
absent field and a stored zero both yield None.  Every failure path
returns None rather than raising. -/
def get_last_price_from_jsonbin (creds : Bool) (resp : Option StoreRecord) :
    Option Rat :=
  if creds then
    match resp with
    | none => none
    | some rec =>
      match rec.lowest_price_eur with
      | none => none
      | some p => if p ≠ 0 then some p else none
  else none

/-- The update_jsonbin function (lines 164-176), described by the record
it attempts to PUT: none when credentials are missing and the function
returns without any request (lines 165-167), otherwise the body built at
line 170, whose price is the two-decimal rounding of the argument.  The
request itself is best-effort: a transport failure is caught at line 175
and never raises. -/
def update_jsonbin (creds : Bool) (now : String) (price : Rat) :
    Option StoreRecord :=
  if creds then some ⟨now, some (roundTo2 price)⟩ else none

/-- The configured alert threshold (line 19). -/
def PRICE_THRESHOLD : Rat := 210

/-- Classification printed by the comparison block (lines 191-196). -/
inductive PriceChange where
  | unchanged
  | dropped
  | increased
deriving DecidableEq, Repr

/-- Observable outcome of one run of main: which comparison was logged
(none when the block at line 191 was skipped), how many times
update_jsonbin was called, how many times send_email_alert was called,
and whether the run returned early at line 188. -/
structure RunResult where
  comparison : Option PriceChange
  storeWrites : Nat
  alerts : Nat
  earlyExit : Bool
deriving DecidableEq, Repr

/-- The main function (lines 178-209) over the two prices it obtains:
last from get_last_price_from_jsonbin, current from get_current_price.
A missing current price returns early (lines 185-188) before the store
update and the threshold check; otherwise the comparison block runs when
last is present (equal, strictly below, else above: lines 192-196),
update_jsonbin is called exactly once (line 199), and send_email_alert
is called exactly when current is at or below the threshold (line 203). -/
def main (last current : Option Rat) (threshold : Rat) : RunResult :=
  match current with
  | none => ⟨none, 0, 0, true⟩
  | some c =>
    let cmp : Option PriceChange :=
      match last with
      | none => none
      | some l =>
        some (if c = l then .unchanged else if c < l then .dropped else .increased)
    ⟨cmp, 1, if c ≤ threshold then 1 else 0, false⟩

/-- The whole pipeline of one run, as main composes it (lines 182-183). -/
def run (creds : Bool) (resp : Option StoreRecord) (fetched : Option Markup)
    (threshold : Rat) : RunResult :=
  main (get_last_price_from_jsonbin creds resp) (get_current_price fetched) threshold

/-- A concrete listings fixture: two available listings (prices 250 and
205) and one sold-out listing with the lowest raw price 199. -/
def demoListings : List Listing :=
  [⟨some 250, some 2⟩, ⟨some 205, some 1⟩, ⟨some 199, some 0⟩]

/-- One iteration of the source loop coincides with one minStep on the
qualifying price, and skips non-qualifying listings. -/
theorem foldStep_eq_minStep (acc : Option Rat) (item : Listing) :
    foldStep acc item =
      match listingPrice item with
      | none => acc
      | some p => minStep acc p := by
  rcases item with ⟨rp, av⟩
  cases rp with
  | none => rfl
  | some p =>
    by_cases h : 0 < (Option.getD av 0)
    · simp [foldStep, listingPrice, minStep, h]
    · simp [foldStep, listingPrice, h]

/-- The source loop over all listings equals the minimum fold over the
qualifying prices. -/
theorem foldl_foldStep_eq (listings : List Listing) (acc : Option Rat) :
    listings.foldl foldStep acc = (qualifyingPrices listings).foldl minStep acc := by
  induction listings generalizing acc with
  | nil => rfl
  | cons item tl ih =>
    rw [List.foldl_cons, foldStep_eq_minStep]
    show _ = (List.filterMap listingPrice (item :: tl)).foldl minStep acc
    rw [List.filterMap_cons]
    cases h : listingPrice item with
    | none => simpa [h] using ih acc
    | some p => simpa [h] using ih (minStep acc p)

/-- With a running minimum already present, one step keeps the smaller
of the two values. -/
theorem minStep_some (a p : Rat) : minStep (some a) p = some (min p a) := by
  show (if p < a then some p else some a) = some (min p a)
  rcases lt_or_ge p a with h | h
  · rw [if_pos h, min_eq_left h.le]
  · rw [if_neg (not_lt.mpr h), min_eq_right h]

/-- Once the accumulator holds a value the fold never returns to none. -/
theorem foldl_minStep_some_isSome (prices : List Rat) (a : Rat) :
    (prices.foldl minStep (some a)).isSome := by
  induction prices generalizing a with
  | nil => rfl
  | cons q tl ih =>
    rw [List.foldl_cons, minStep_some]
    exact ih _

/-- The fold from the empty accumulator yields none exactly on the empty
price list. -/
theorem foldl_minStep_none_iff (prices : List Rat) :
    prices.foldl minStep none = none ↔ prices = [] := by
  constructor
  · intro h
    cases prices with
    | nil => rfl
    | cons q tl =>
      rw [List.foldl_cons] at h
      have h' : List.foldl minStep (some q) tl = none := h
      have hs := foldl_minStep_some_isSome tl q
      rw [h'] at hs
      cases hs
  · intro h
    subst h
    rfl

/-- A value produced by the fold is the incoming accumulator or a member
of the price list. -/
theorem foldl_minStep_mem (prices : List Rat) (acc : Option Rat) (m : Rat)
    (h : prices.foldl minStep acc = some m) : acc = some m ∨ m ∈ prices := by
  induction prices generalizing acc with
  | nil => exact Or.inl h
  | cons q tl ih =>
    rw [List.foldl_cons] at h
    rcases ih (minStep acc q) h with h1 | h1
    · cases acc with
      | none =>
        have hq : q = m := by simpa [minStep] using h1
        exact Or.inr (hq ▸ List.mem_cons_self q tl)
      | some a =>
        rw [minStep_some] at h1
        have hm : min q a = m := Option.some.inj h1
        rcases le_total q a with hle | hle
        · refine Or.inr ?_
          rw [← hm, min_eq_left hle]
          exact List.mem_cons_self q tl
        · refine Or.inl ?_
          rw [← hm, min_eq_right hle]
    · exact Or.inr (List.mem_cons_of_mem q h1)

/-- A value produced by the fold is at most the incoming accumulator. -/
theorem foldl_minStep_le_acc (prices : List Rat) (a m : Rat)
    (h : prices.foldl minStep (some a) = some m) : m ≤ a := by
  induction prices generalizing a with
  | nil => exact le_of_eq (Option.some.inj h).symm
  | cons q tl ih =>
    rw [List.foldl_cons, minStep_some] at h
    exact (ih (min q a) h).trans (min_le_right q a)

/-- A value produced by the fold is a lower bound of the price list. -/
theorem foldl_minStep_le (prices : List Rat) (acc : Option Rat) (m : Rat)
    (h : prices.foldl minStep acc = some m) : ∀ p ∈ prices, m ≤ p := by
  induction prices generalizing acc with
  | nil =>
    intro p hp
    cases hp
  | cons q tl ih =>
    intro p hp
    rw [List.foldl_cons] at h
    rcases List.mem_cons.mp hp with rfl | hp'
    · cases acc with
      | none => exact foldl_minStep_le_acc tl p m (by simpa [minStep] using h)
      | some a =>
        rw [minStep_some] at h
        exact (foldl_minStep_le_acc tl (min p a) m h).trans (min_le_left p a)
    · exact ih (minStep acc q) h p hp'

/-- The minimum fold is invariant under permutation of the price list. -/
theorem foldl_minStep_perm (p1 p2 : List Rat) (h : p1.Perm p2) :
    p1.foldl minStep none = p2.foldl minStep none := by
  cases e1 : p1.foldl minStep none with
  | none =>
    have h1 : p1 = [] := (foldl_minStep_none_iff p1).mp e1
    subst h1
    have h2 : p2 = [] := h.symm.eq_nil
    subst h2
    rfl
  | some m =>
    cases e2 : p2.foldl minStep none with
    | none =>
      have h2 : p2 = [] := (foldl_minStep_none_iff p2).mp e2
      subst h2
      have h1 : p1 = [] := h.eq_nil
      subst h1
      cases e1
    | some m2 =>
      have hm1 : m ∈ p1 := (foldl_minStep_mem p1 none m e1).resolve_left (by simp)
      have hm2 : m2 ∈ p2 := (foldl_minStep_mem p2 none m2 e2).resolve_left (by simp)
      have le1 : m ≤ m2 := foldl_minStep_le p1 none m e1 m2 (h.mem_iff.mpr hm2)
      have le2 : m2 ≤ m := foldl_minStep_le p2 none m2 e2 m (h.mem_iff.mp hm1)
      rw [le_antisymm le1 le2]

/-- On well-formed markup the extraction core returns the minimum fold
over the qualifying prices. -/
theorem extract_price_markupOf (items : List Listing) :
    extract_price (markupOf items) = .ok ((qualifyingPrices items).foldl minStep none) := by
  show Except.ok (items.foldl foldStep none) = _
  rw [foldl_foldStep_eq]

/-- C1: on markup whose marker block holds a listings sequence with at
least one qualifying listing (available-count above zero and a price
field present), the extractor succeeds with the minimum price over
exactly the qualifying listings, and the result is unchanged under any
permutation of the listings sequence. -/
theorem C1_extractor_minimum (items : List Listing)
    (h : qualifyingPrices items ≠ []) :
    (∃ m : Rat, extract_price (markupOf items) = .ok (some m) ∧
        m ∈ qualifyingPrices items ∧ ∀ p ∈ qualifyingPrices items, m ≤ p) ∧
    (∀ items2 : List Listing, items.Perm items2 →
        extract_price (markupOf items) = extract_price (markupOf items2)) := by
  constructor
  · cases e : (qualifyingPrices items).foldl minStep none with
    | none => exact absurd ((foldl_minStep_none_iff _).mp e) h
    | some m =>
      refine ⟨m, ?_, ?_, ?_⟩
      · rw [extract_price_markupOf, e]
      · exact (foldl_minStep_mem _ none m e).resolve_left (by simp)
      · exact foldl_minStep_le _ none m e
  · intro items2 hperm
    rw [extract_price_markupOf, extract_price_markupOf]
    rw [foldl_minStep_perm (qualifyingPrices items) (qualifyingPrices items2)
      (hperm.filterMap listingPrice)]

/-- Witness for C1 at the demo fixture: two qualifying listings with
prices 250 and 205, one sold-out listing at 199. -/
theorem C1_extractor_minimum_witness :
    qualifyingPrices demoListings ≠ [] ∧
    ((∃ m : Rat, extract_price (markupOf demoListings) = .ok (some m) ∧
        m ∈ qualifyingPrices demoListings ∧ ∀ p ∈ qualifyingPrices demoListings, m ≤ p) ∧
     (∀ items2 : List Listing, demoListings.Perm items2 →
        extract_price (markupOf demoListings) = extract_price (markupOf items2))) :=
  ⟨by decide, C1_extractor_minimum demoListings (by decide)⟩

/-- C2: the store update is called exactly once, and the run does not
exit early, whenever a current price was extracted, whatever the last
price and the threshold; with no extracted price the run exits early
with no store update call and no alert call. -/
theorem C2_store_write_iff_extracted (last : Option Rat) (c threshold : Rat) :
    (main last (some c) threshold).storeWrites = 1 ∧
    (main last (some c) threshold).earlyExit = false ∧
    (main last none threshold).storeWrites = 0 ∧
    (main last none threshold).alerts = 0 ∧
    (main last none threshold).earlyExit = true :=
  ⟨rfl, rfl, rfl, rfl, rfl⟩

/-- C3: with an extracted current price, the alert dispatch is invoked
exactly when the price is at or below the threshold, and the boundary
price equal to the threshold does dispatch. -/
theorem C3_alert_iff_at_or_below_threshold (last : Option Rat) (c t : Rat) :
    ((main last (some c) t).alerts = 1 ↔ c ≤ t) ∧
    (main last (some t) t).alerts = 1 := by
  constructor
  · show (if c ≤ t then 1 else 0) = 1 ↔ c ≤ t
    by_cases h : c ≤ t <;> simp [h]
  · show (if t ≤ t then 1 else 0) = 1
    simp

/-- Counterexample to C4 as stated: a single listing with raw price -1
and one available ticket makes the extractor succeed with the
non-positive price -1; the loop never checks the sign of rawPrice. -/
theorem C4_positive_counterexample :
    extract_price (markupOf [⟨some (-1), some 1⟩]) = .ok (some (-1)) ∧
    ¬ (0 : Rat) < -1 := by
  constructor
  · rfl
  · decide

/-- C4 amended: the extractor on success returns the minimum qualifying
price, so the result is positive provided every qualifying listing
carries a positive price; the code itself never rejects a non-positive
price. -/
theorem C4_positive_amended (items : List Listing)
    (hpos : ∀ p ∈ qualifyingPrices items, 0 < p) :
    ∀ m : Rat, extract_price (markupOf items) = .ok (some m) → 0 < m := by
  intro m hm
  rw [extract_price_markupOf] at hm
  have e : (qualifyingPrices items).foldl minStep none = some m :=
    Except.ok.inj hm
  exact hpos m ((foldl_minStep_mem _ none m e).resolve_left (by simp))

/-- Witness for the amended C4 at one qualifying listing of price 3. -/
theorem C4_positive_amended_witness :
    (∀ p ∈ qualifyingPrices [⟨some 3, some 1⟩], (0 : Rat) < p) ∧
    (∀ m : Rat, extract_price (markupOf [⟨some 3, some 1⟩]) = .ok (some m) → 0 < m) :=
  ⟨by decide, C4_positive_amended [⟨some 3, some 1⟩] (by decide)⟩

/-- The floor used by roundTo2 agrees with the floor of the rational. -/
theorem ratFloor_eq_floor (q : ℚ) : q.floor = ⌊q⌋ := by
  rw [Rat.floor_def', Rat.floor_def]

/-- Evaluation of the write-time rounding at the input 182.345: the
scaled value 18234.5 sits exactly on the half-way point and resolves to
the even cent count 18234. -/
theorem roundTo2_at_182345 : roundTo2 (182345/1000 : Rat) = 18234/100 := by
  have h1 : (182345/1000 : Rat) * 100 = ((36469 : ℤ) : ℚ) / ((2 : ℕ) : ℚ) := by
    norm_num
  have hfloor : ((182345/1000 : Rat) * 100).floor = 18234 := by
    rw [ratFloor_eq_floor, h1, Rat.floor_intCast_div_natCast]
    decide
  simp only [roundTo2]
  rw [hfloor]
  norm_num

/-- Counterexample to C5 as stated: writing 182.345 with configured
credentials and reading the written record back yields 182.34, not the
claimed 182.35, because the two-decimal formatting resolves the half-way
case downwards (ties to even, and the binary double behind 182.345 is
itself below the decimal tie). -/
theorem C5_roundtrip_counterexample :
    get_last_price_from_jsonbin true
        (update_jsonbin true "2025-01-01T00:00:00" (182.345 : Rat)) =
      some (182.34 : Rat) ∧
    (182.34 : Rat) ≠ (182.35 : Rat) := by
  have h345 : (182.345 : Rat) = 182345/1000 := by norm_num
  have hro : roundTo2 (182.345 : Rat) = 18234/100 := by
    rw [h345, roundTo2_at_182345]
  constructor
  · show (if roundTo2 (182.345 : Rat) ≠ 0 then some (roundTo2 (182.345 : Rat)) else none) =
      some (182.34 : Rat)
    rw [hro]
    norm_num
  · norm_num

/-- C5 amended: the price 182.345 written via update_jsonbin and read
back via get_last_price_from_jsonbin yields 182.34, the two-decimal
rounding applied at write time. -/
theorem C5_roundtrip_amended :
    get_last_price_from_jsonbin true
        (update_jsonbin true "2025-01-01T00:00:00" (182.345 : Rat)) =
      some (182.34 : Rat) := by
  have h345 : (182.345 : Rat) = 182345/1000 := by norm_num
  have hro : roundTo2 (182.345 : Rat) = 18234/100 := by
    rw [h345, roundTo2_at_182345]
  show (if roundTo2 (182.345 : Rat) ≠ 0 then some (roundTo2 (182.345 : Rat)) else none) =
    some (182.34 : Rat)
  rw [hro]
  norm_num

/-- C6: on markup without the index-data marker the extraction core
raises the distinct markerNotFound error, so it produces neither a price
nor the no-inventory none result. -/
theorem C6_marker_not_found (m : Markup) (h : m.indexData = none) :
    extract_price m = .error .markerNotFound ∧
    ∀ r : Option Rat, extract_price m ≠ .ok r := by
  have e : extract_price m = .error .markerNotFound := by
    unfold extract_price
    rw [h]
  refine ⟨e, fun r hr => ?_⟩
  rw [e] at hr
  cases hr

/-- Witness for C6 at the markup with no marker block. -/
theorem C6_marker_not_found_witness :
    (Markup.mk none).indexData = none ∧
    (extract_price (Markup.mk none) = .error .markerNotFound ∧
     ∀ r : Option Rat, extract_price (Markup.mk none) ≠ .ok r) :=
  ⟨rfl, C6_marker_not_found (Markup.mk none) rfl⟩

/-- C7: with the marker block present, an absent or empty listings
sequence yields the not-found none result and no error; likewise a
listings sequence in which every listing has available-count zero. -/
theorem C7_no_inventory_not_error (payload : Payload) (items : List Listing)
    (h1 : payload.gridItems = none ∨ payload.gridItems = some [])
    (h2 : ∀ it ∈ items, it.availableTickets.getD 0 = 0) :
    extract_price ⟨some (some payload)⟩ = .ok none ∧
    extract_price (markupOf items) = .ok none := by
  constructor
  · rcases h1 with h | h <;> simp [extract_price, h]
  · have hq : qualifyingPrices items = [] := by
      refine List.filterMap_eq_nil_iff.mpr ?_
      intro it hit
      unfold listingPrice
      cases hr : it.rawPrice with
      | none => rfl
      | some p =>
        rw [h2 it hit]
        simp
    rw [extract_price_markupOf, hq]
    rfl

/-- Witness for C7: empty listings sequence, and two listings with zero
or absent available-count. -/
theorem C7_no_inventory_not_error_witness :
    ((Payload.mk (some [])).gridItems = none ∨
      (Payload.mk (some [])).gridItems = some []) ∧
    (∀ it ∈ [Listing.mk (some 100) (some 0), Listing.mk (some 50) none],
      it.availableTickets.getD 0 = 0) ∧
    (extract_price ⟨some (some (Payload.mk (some [])))⟩ = .ok none ∧
     extract_price (markupOf [Listing.mk (some 100) (some 0), Listing.mk (some 50) none]) = .ok none) :=
  ⟨by decide, by decide,
    C7_no_inventory_not_error (Payload.mk (some []))
      [Listing.mk (some 100) (some 0), Listing.mk (some 50) none]
      (by decide) (by decide)⟩

/-- C8: with both prices present the comparison is logged as unchanged
when current equals last, as dropped when current is strictly below
last, and as increased otherwise (current strictly above last); with no
last price the classification is skipped, and in either case the store
update and the threshold check still run. -/
theorem C8_comparison_classification (l c t : Rat) :
    (main (some l) (some c) t).comparison =
      some (if c = l then PriceChange.unchanged
            else if c < l then PriceChange.dropped else PriceChange.increased) ∧
    (main none (some c) t).comparison = none ∧
    (main none (some c) t).storeWrites = 1 ∧
    (main (some l) (some c) t).storeWrites = 1 ∧
    (main (some l) (some c) t).alerts = (if c ≤ t then 1 else 0) :=
  ⟨rfl, rfl, rfl, rfl, rfl⟩

/-- C9: without configured store credentials the read returns none (no
stored price available) and the update performs no request, for every
response and every price, and neither raises. -/
theorem C9_missing_credentials (resp : Option StoreRecord) (now : String) (p : Rat) :
    get_last_price_from_jsonbin false resp = none ∧
    update_jsonbin false now p = none :=
  ⟨rfl, rfl⟩

/-- C10: a successful store read whose record carries the stored price 0
returns none (unavailable) rather than the stored value, because the
field goes through a truthiness test. -/
theorem C10_zero_price_unavailable (ts : String) :
    get_last_price_from_jsonbin true (some ⟨ts, some 0⟩) = none := by
  simp [get_last_price_from_jsonbin]

end PriceChecker
